import Mathlib

/-!
Verification of the hierarchical-code-learning repository.

The development shallowly embeds the batch-construction pipeline of
`dataset/embeddings_plus_lexical_knowledge.py` and the loss / scoring
functions of `model/loss_supervised.py`, and proves or refutes the
spec's claims about them.

Conventions of the embedding:

* Entities (Python strings) are modelled as natural numbers.
* Python floats are modelled as exact rationals; the diagnostic
  `verify_batch_sizes` calculator, which multiplies by the
  transcendental coefficient `1 - e⁻¹`, is modelled over the reals.
* Tensors are modelled as (nested) lists of rationals; `torch` ops
  (`cumprod`, `cat`, `index_select`, `clamp`, ...) become the
  corresponding list operations.
* The nondeterministic draw `np.random.choice(range(n), size, replace=False)`
  is modelled by an arbitrary index list; a hypothesis states exactly the
  guarantees the draw provides (distinct indices inside the vocabulary).
* Python dicts/sets: a batch's token set is modelled as a duplicate-free
  list (`List.dedup`); the set-iteration order of Python is unspecified,
  and no claim below depends on it.
-/

namespace HierarchicalCodeLearning

/-- One record of the hyponymy dataset: a dict
`{"hyponym": ..., "hypernym": ..., "distance": ...}`. -/
structure HyponymySample where
  hyponym : Nat
  hypernym : Nat
  distance : ℚ
deriving DecidableEq

/-- Token set collected from a list of hyponymy samples
(`set_tokens` built in `_create_batch_from_hyponymy_samples`, lines 65-68):
hyponym and hypernym of every record, deduplicated. -/
def set_tokens (batch_hyponymy : List HyponymySample) : List Nat :=
  (batch_hyponymy.flatMap fun s => [s.hyponym, s.hypernym]).dedup

/-- The relation-relevant fields of the batch dict returned by
`_create_batch_from_hyponymy_samples` (the embedding matrix row `i` is the
word embedding of `entity[i]` and carries no further logical content). -/
structure Batch where
  entity : List Nat
  hyponymy_relation : List (Nat × Nat × ℚ)
  hyponymy_relation_raw : List HyponymySample
deriving DecidableEq

/-- Embedding of `WordEmbeddingsAndHyponymyDataset._create_batch_from_hyponymy_samples`
(lines 62-104).  `index_to_entity` is the embedding source's vocabulary map,
`lst_index` the outcome of the `np.random.choice` draw (`n_diff` distinct
indices of the vocabulary).  The token set of the samples is topped up with
the drawn entities (a Python `set.update`, hence the final `dedup`), a dense
token-to-index map is the position in `lst_tokens`, and every sample is
re-expressed as `(hypernym index, hyponym index, distance)`. -/
def create_batch_from_hyponymy_samples (index_to_entity : Nat → Nat)
    (embedding_batch_size : Nat) (batch_hyponymy : List HyponymySample)
    (lst_index : List Nat) : Batch :=
  let st := set_tokens batch_hyponymy
  let n_diff : Int := (embedding_batch_size : Int) - (st.length : Int)
  let lst_tokens_from_embeddings : List Nat :=
    if 0 < n_diff then lst_index.map index_to_entity else []
  let lst_tokens := (st ++ lst_tokens_from_embeddings).dedup
  { entity := lst_tokens
    hyponymy_relation := batch_hyponymy.map fun h =>
      (lst_tokens.indexOf h.hypernym, lst_tokens.indexOf h.hyponym, h.distance)
    hyponymy_relation_raw := batch_hyponymy }

/-- Embedding of
`WordEmbeddingsAndHyponymyDatasetWithNonHyponymyRelation._split_hyponymy_samples_and_non_hyponymy_samples`
(lines 263-282).  The loop over `zip(batch["hyponymy_relation"],
batch["hyponymy_relation_raw"])` appends each pair to the hyponymy lists when
`distance > 0` and to the non-hyponymy lists otherwise; this is the filter of
the zipped list by the sign test, projected back to the two components.
Returns `(hyponymy_relation, hyponymy_relation_raw, non_hyponymy_relation,
non_hyponymy_relation_raw)`. -/
def split_hyponymy_samples_and_non_hyponymy_samples
    (rels : List (Nat × Nat × ℚ)) (raws : List HyponymySample) :
    List (Nat × Nat × ℚ) × List HyponymySample ×
      List (Nat × Nat × ℚ) × List HyponymySample :=
  let z := List.zip rels raws
  let pos := z.filter fun p => decide ((0 : ℚ) < p.1.2.2)
  let nonpos := z.filter fun p => !(decide ((0 : ℚ) < p.1.2.2))
  (pos.map Prod.fst, pos.map Prod.snd, nonpos.map Prod.fst, nonpos.map Prod.snd)

/-! Scoring functions of `model/loss_supervised.py`.  A code distribution
for one entity is a list of `n_digits` rows, each row the categorical
distribution of one digit over the `n_ary` alphabet; a batch tensor is a
list of such matrices.  `torch.index_select(t, -1, 0).squeeze` is `headI`
of each row. -/

/-- Embedding of `torch.cumprod` along the last dimension:
entry `i` of the result is the product of entries `0..i` of the input. -/
def cumprod : List ℚ → List ℚ
  | [] => []
  | a :: l => a :: (cumprod l).map (a * ·)

/-- Embedding of `CodeLengthPredictionLoss._intensity_to_probability`
(lines 117-127): pad the intensity list with a leading 0 and a trailing 1,
and form `cumprod (1 - cat(0, x)) * cat(x, 1)` elementwise. -/
def intensity_to_probability (t_intensity : List ℚ) : List ℚ :=
  List.zipWith (· * ·)
    (cumprod (((0 : ℚ) :: t_intensity).map fun a => 1 - a))
    (t_intensity ++ [1])

/-- Column 0 of a code-distribution matrix:
`torch.index_select(t_prob_c, -1, 0).squeeze()` (line 130). -/
def digit_zero_probs (t_prob_c : List (List ℚ)) : List ℚ :=
  t_prob_c.map List.headI

/-- Weights `torch.arange(n_digits + 1)` cast to the scalar type. -/
def arange_weights (n_digits : Nat) : List ℚ :=
  (List.range (n_digits + 1)).map (Nat.cast : ℕ → ℚ)

/-- Embedding of `CodeLengthPredictionLoss.calc_soft_code_length`
(lines 129-138): expected stopping position of the termination process whose
per-digit stop intensity is the digit-0 probability. -/
def calc_soft_code_length (t_prob_c : List (List ℚ)) : ℚ :=
  let t_p_c_zero := digit_zero_probs t_prob_c
  let n_digits := t_p_c_zero.length
  let t_p_at_n := intensity_to_probability t_p_c_zero
  (List.zipWith (· * ·) t_p_at_n (arange_weights n_digits)).sum

/-- Embedding of `HyponymyScoreLoss._calc_break_intensity` (lines 218-227):
per digit, `1 - (Σ_v x_v·y_v - x_0·y_0)`. -/
def calc_break_intensity (t_prob_c_x t_prob_c_y : List (List ℚ)) : List ℚ :=
  List.zipWith
    (fun rx ry => 1 - ((List.zipWith (· * ·) rx ry).sum - rx.headI * ry.headI))
    t_prob_c_x t_prob_c_y

/-- Embedding of `HyponymyScoreLoss.calc_ancestor_probability` (lines 229-251):
`Σ_n β_n · Π_{m ≤ n} γ_m` with `β_n = x_n0·(1 - y_n0)`,
`γ = narrow(cat(1, γ̂), 0, n_digits)` and
`γ̂_n = Σ_v x_nv·y_nv - x_n0·y_n0`. -/
def calc_ancestor_probability (t_prob_c_x t_prob_c_y : List (List ℚ)) : ℚ :=
  let n_digits := t_prob_c_x.length
  let t_beta := List.zipWith
    (fun rx ry => rx.headI * (1 - ry.headI)) t_prob_c_x t_prob_c_y
  let t_gamma_hat := List.zipWith
    (fun rx ry => (List.zipWith (· * ·) rx ry).sum - rx.headI * ry.headI)
    t_prob_c_x t_prob_c_y
  let t_gamma := ((1 : ℚ) :: t_gamma_hat).take n_digits
  (List.zipWith (· * ·) t_beta (cumprod t_gamma)).sum

/-- Embedding of `HyponymyScoreLoss.calc_soft_lowest_common_ancestor_length`
(lines 253-263): survival-process expectation over the break intensity. -/
def calc_soft_lowest_common_ancestor_length
    (t_prob_c_x t_prob_c_y : List (List ℚ)) : ℚ :=
  let n_digits := t_prob_c_x.length
  let t_prob_break := intensity_to_probability
    (calc_break_intensity t_prob_c_x t_prob_c_y)
  (List.zipWith (· * ·) t_prob_break (arange_weights n_digits)).sum

/-- Embedding of `HyponymyScoreLoss.calc_soft_hyponymy_score` (lines 265-280). -/
def calc_soft_hyponymy_score (t_prob_c_x t_prob_c_y : List (List ℚ)) : ℚ :=
  let l_hyper := calc_soft_code_length t_prob_c_x
  let l_hypo := calc_soft_code_length t_prob_c_y
  let alpha := calc_ancestor_probability t_prob_c_x t_prob_c_y
  let l_lca := calc_soft_lowest_common_ancestor_length t_prob_c_x t_prob_c_y
  alpha * (l_hypo - l_hyper) + (1 - alpha) * (l_lca - l_hyper)

/-! Forward passes.  Each loss forward selects rows of the batch tensor by
index and applies one scoring function; the hyponymy-score and entailment
forwards first clamp the whole tensor
(`torch.clamp(t_prob_c_batch, 1E-5, 1 - 1E-5)`, lines 294 and 373).
We model the stage up to and including the scoring function (`y_pred`);
the subsequent distance metric and scale factor do not touch the
distributions. -/

/-- Elementwise `torch.clamp(x, min=1E-5, max=1.0-1E-5)`. -/
def clamp_prob (x : ℚ) : ℚ :=
  min (max x (1 / 100000)) (1 - 1 / 100000)

/-- Clamp applied to a whole batch tensor. -/
def clamp_tensor (t : List (List (List ℚ))) : List (List (List ℚ)) :=
  t.map fun m => m.map fun r => r.map clamp_prob

/-- Embedding of `torch.index_select(t, 0, idx)` for a batch tensor
(out-of-range indices never occur in the claims below). -/
def index_select (t : List (List (List ℚ))) (idx : List Nat) :
    List (List (List ℚ)) :=
  idx.map fun i => t.getD i []

/-- The `y_pred` stage of `CodeLengthPredictionLoss.forward` (lines 140-171):
rows are selected from the raw batch tensor — no clamping — and
`calc_soft_code_length` is applied. -/
def code_length_forward_y_pred (t_prob_c_batch : List (List (List ℚ)))
    (lst_code_length_tuple : List (Nat × ℚ)) : List ℚ :=
  (index_select t_prob_c_batch (lst_code_length_tuple.map Prod.fst)).map
    calc_soft_code_length

/-- The `y_pred` stage of `CodeLengthDiffPredictionLoss.forward`
(lines 176-202): code lengths of the whole raw batch tensor, then
`len(hyponym) - len(hypernym)` per tuple — no clamping. -/
def code_length_diff_forward_y_pred (t_prob_c_batch : List (List (List ℚ)))
    (lst_code_length_diff_tuple : List (Nat × Nat × ℚ)) : List ℚ :=
  let t_code_length := t_prob_c_batch.map calc_soft_code_length
  List.zipWith (fun a b => a - b)
    ((lst_code_length_diff_tuple.map fun tup => tup.2.1).map
      fun i => t_code_length.getD i 0)
    ((lst_code_length_diff_tuple.map fun tup => tup.1).map
      fun i => t_code_length.getD i 0)

/-- The `y_pred` stage of `HyponymyScoreLoss.forward` (lines 282-315):
the batch tensor is clamped into `[1E-5, 1-1E-5]` first, then hypernym and
hyponym rows are selected and scored. -/
def hyponymy_score_forward_y_pred (t_prob_c_batch : List (List (List ℚ)))
    (lst_hyponymy_tuple : List (Nat × Nat × ℚ)) : List ℚ :=
  let t_clamped := clamp_tensor t_prob_c_batch
  List.zipWith calc_soft_hyponymy_score
    (index_select t_clamped (lst_hyponymy_tuple.map Prod.fst))
    (index_select t_clamped (lst_hyponymy_tuple.map fun tup => tup.2.1))

/-- The `y_pred` stage of `LowestCommonAncestorLengthPredictionLoss.forward`
(lines 320-350): rows are selected from the raw batch tensor — no clamping —
and the soft LCA length is computed. -/
def lca_length_forward_y_pred (t_prob_c_batch : List (List (List ℚ)))
    (lst_hyponymy_tuple : List (Nat × Nat × ℚ)) : List ℚ :=
  List.zipWith calc_soft_lowest_common_ancestor_length
    (index_select t_prob_c_batch (lst_hyponymy_tuple.map Prod.fst))
    (index_select t_prob_c_batch (lst_hyponymy_tuple.map fun tup => tup.2.1))

/-- The `y_pred` stage of `EntailmentProbabilityLoss.forward` (lines 361-386):
the batch tensor is clamped into `[1E-5, 1-1E-5]` first, then the ancestor
probability of each selected pair is computed. -/
def entailment_probability_forward_y_pred
    (t_prob_c_batch : List (List (List ℚ)))
    (lst_hyponymy_tuple : List (Nat × Nat × ℚ)) : List ℚ :=
  let t_clamped := clamp_tensor t_prob_c_batch
  List.zipWith calc_ancestor_probability
    (index_select t_clamped (lst_hyponymy_tuple.map Prod.fst))
    (index_select t_clamped (lst_hyponymy_tuple.map fun tup => tup.2.1))

/-! Distance metrics of `CodeLengthPredictionLoss` (default reduction
`mean`). -/

/-- Embedding of `F.mse_loss(u, v, reduction="mean")`:
mean of the elementwise squared differences. -/
def mse_mean (u v : List ℚ) : ℚ :=
  (List.zipWith (fun a b => (a - b) ^ 2) u v).sum / (u.length : ℚ)

/-- The least-squares multiplicative factor fitted by
`CodeLengthPredictionLoss._auto_scaled_mse` (line 81):
`Σ uᵢvᵢ / (Σ uᵢ² + 1E-6)`. -/
def auto_scale (u v : List ℚ) : ℚ :=
  (List.zipWith (· * ·) u v).sum / ((u.map fun a => a ^ 2).sum + 1 / 1000000)

/-- Embedding of `CodeLengthPredictionLoss._auto_scaled_mse` (lines 79-86).
When the fitted scale is not positive the code falls back to
`self._scaled_mse`, which standardizes by `torch.std` — a square root that has
no exact rational value; the fallback is therefore a parameter of the
embedding, and every theorem below is independent of it. -/
def auto_scaled_mse (scaled_mse_fallback : List ℚ → List ℚ → ℚ)
    (u v : List ℚ) : ℚ :=
  let scale := auto_scale u v
  if 0 < scale then mse_mean (u.map fun a => scale * a) v
  else scaled_mse_fallback u v

/-- Closed tag set of the distance metrics dispatched in
`CodeLengthPredictionLoss.__init__` (lines 24-48). -/
inductive DistanceMetric where
  | mse
  | scaled_mse
  | standardized_mse
  | autoscaled_mse
  | positive_autoscaled_mse
  | batchnorm_mse
  | mae
  | scaled_mae
  | cosine
  | hinge
  | binary_cross_entropy
deriving DecidableEq

/-- The metric names accepted by `CodeLengthPredictionLoss.__init__`. -/
def supported_distance_metrics : List String :=
  ["mse", "scaled-mse", "standardized-mse", "autoscaled-mse",
   "positive-autoscaled-mse", "batchnorm-mse", "mae", "scaled-mae",
   "cosine", "hinge", "binary-cross-entropy"]

/-- Embedding of the `distance_metric` dispatch chain of
`CodeLengthPredictionLoss.__init__` (lines 24-48): each supported name
resolves to its tag once, at construction; any other name raises
`AttributeError` there. -/
def select_distance_metric (s : String) : Except String DistanceMetric :=
  if s = "mse" then .ok .mse
  else if s = "scaled-mse" then .ok .scaled_mse
  else if s = "standardized-mse" then .ok .standardized_mse
  else if s = "autoscaled-mse" then .ok .autoscaled_mse
  else if s = "positive-autoscaled-mse" then .ok .positive_autoscaled_mse
  else if s = "batchnorm-mse" then .ok .batchnorm_mse
  else if s = "mae" then .ok .mae
  else if s = "scaled-mae" then .ok .scaled_mae
  else if s = "cosine" then .ok .cosine
  else if s = "hinge" then .ok .hinge
  else if s = "binary-cross-entropy" then .ok .binary_cross_entropy
  else .error ("unsupported distance metric was specified: " ++ s)

/-! Construction of `WordEmbeddingsAndHyponymyDatasetWithNonHyponymyRelation`
(lines 144-185). -/

/-- Errors raised while running the constructor. -/
inductive InitError where
  | assertionError (msg : String)
  | typeError (msg : String)
  | zeroDivisionError
deriving DecidableEq

/-- Configuration state stored by a successful construction of
`WordEmbeddingsAndHyponymyDatasetWithNonHyponymyRelation` (the fields
relevant to the batch-size contract). -/
structure NonHyponymyConfig where
  embedding_batch_size : Nat
  hyponymy_batch_size : Nat
  non_hyponymy_batch_size : Nat
  non_hyponymy_multiple : Nat
  non_hyponymy_relation_target : String
  limit_hyponym_candidates_within_minibatch : Bool
deriving DecidableEq

/-- Embedding of
`WordEmbeddingsAndHyponymyDatasetWithNonHyponymyRelation.__init__`
(lines 144-177), with the checks in source order:
the superclass assert `embedding_batch_size >= 2*hyponymy_batch_size`
(line 22), then `non_hyponymy_batch_size % hyponymy_batch_size == 0`
(line 156) — note this expression is evaluated on the *optional* argument
before the `None`-to-default substitution of line 164, so `none` raises
`TypeError` (`None % int`) and a zero `hyponymy_batch_size` raises
`ZeroDivisionError` — then the candidate-pool size assert (lines 157-159),
the target-name assert (lines 161-162), and the even-multiple assert for
target `both` (lines 173-174). -/
def with_non_hyponymy_init (embedding_batch_size hyponymy_batch_size : Nat)
    (non_hyponymy_batch_size : Option Nat)
    (non_hyponymy_relation_target : String)
    (limit_hyponym_candidates_within_minibatch : Bool) :
    Except InitError NonHyponymyConfig :=
  if ¬ (2 * hyponymy_batch_size ≤ embedding_batch_size) then
    .error (.assertionError
      "embedding_batch_size must be two times larger than hyponymy_batch_size.")
  else
    match non_hyponymy_batch_size with
    | none => .error (.typeError
        "unsupported operand type for mod: NoneType and int")
    | some nb =>
      if hyponymy_batch_size = 0 then .error .zeroDivisionError
      else if ¬ (nb % hyponymy_batch_size = 0) then
        .error (.assertionError
          "non_hyponymy_batch_size must be a multiple of hyponymy_batch_size.")
      else if ¬ limit_hyponym_candidates_within_minibatch ∧
          ¬ (2 * hyponymy_batch_size + nb ≤ embedding_batch_size) then
        .error (.assertionError
          "embedding_batch_size must be larger than 2*hyponymy_batch_size + non_hyponymy_batch_size.")
      else if ¬ (non_hyponymy_relation_target ∈ ["hyponym", "hypernym", "both"]) then
        .error (.assertionError
          "non_hyponymy_relation_target must be one of these: hyponym,hypernym,both")
      else
        let multiple := nb / hyponymy_batch_size
        if non_hyponymy_relation_target = "both" ∧ ¬ (multiple % 2 = 0) then
          .error (.assertionError
            "non_hyponymy_batch_size must be an even multiple of the hyponymy_batch_size")
        else
          .ok { embedding_batch_size := embedding_batch_size
                hyponymy_batch_size := hyponymy_batch_size
                non_hyponymy_batch_size := nb
                non_hyponymy_multiple := multiple
                non_hyponymy_relation_target := non_hyponymy_relation_target
                limit_hyponym_candidates_within_minibatch :=
                  limit_hyponym_candidates_within_minibatch }

/-! The diagnostic calculator `verify_batch_sizes`.  It multiplies by the
coefficient `1 - 1/e`, so it is modelled over the reals. -/

/-- Coefficient `coef_effective_samples = 1 - 1/np.e` (line 42). -/
noncomputable def coef_effective_samples : ℝ :=
  1 - 1 / Real.exp 1

/-- Embedding of the quantity `n_embeddings_used_in_epoch` computed by
`WordEmbeddingsAndHyponymyDataset.verify_batch_sizes` (lines 42-46):
`coef · (n_hyponymy / hyponymy_batch_size) · (embedding_batch_size -
2·hyponymy_batch_size)`; the iteration count is the exact quotient
`n_hyponymy / self._hyponymy_batch_size` (true division, line 43). -/
noncomputable def n_embeddings_used_in_epoch
    (n_hyponymy hyponymy_batch_size embedding_batch_size : Nat) : ℝ :=
  let n_iteration : ℝ := (n_hyponymy : ℝ) / (hyponymy_batch_size : ℝ)
  let n_embeddings_sample_in_batch : ℝ :=
    (embedding_batch_size : ℝ) - 2 * (hyponymy_batch_size : ℝ)
  coef_effective_samples * n_iteration * n_embeddings_sample_in_batch

/-- The `consumption ratio` reported by `verify_batch_sizes` (line 47). -/
noncomputable def consumption_fraction
    (n_hyponymy n_embeddings hyponymy_batch_size embedding_batch_size : Nat) : ℝ :=
  n_embeddings_used_in_epoch n_hyponymy hyponymy_batch_size embedding_batch_size
    / (n_embeddings : ℝ)

/-- The quantity the spec claims for `n_embeddings_used_in_epoch`: the same
product but with the relation-batch count rounded up,
`ceil(N_relations / B_r)`.  Stated from the spec's words for comparison with
the implementation. -/
noncomputable def n_embeddings_used_in_epoch_spec
    (n_hyponymy hyponymy_batch_size embedding_batch_size : Nat) : ℝ :=
  coef_effective_samples *
    ((⌈(n_hyponymy : ℝ) / (hyponymy_batch_size : ℝ)⌉ : ℤ) : ℝ) *
    ((embedding_batch_size : ℝ) - 2 * (hyponymy_batch_size : ℝ))

/-- Embedding of the same quantity in the subclass override
`WordEmbeddingsAndHyponymyDatasetWithNonHyponymyRelation.verify_batch_sizes`
(lines 192-201): with `limit_hyponym_candidates_within_minibatch` the filler
slot count is `B_e - 2·B_r`, otherwise `B_e - 2·B_r - non_hyponymy_batch_size`. -/
noncomputable def n_embeddings_used_in_epoch_with_non_hyponymy
    (n_hyponymy hyponymy_batch_size embedding_batch_size
      non_hyponymy_batch_size : Nat)
    (limit_hyponym_candidates_within_minibatch : Bool) : ℝ :=
  let n_iteration : ℝ := (n_hyponymy : ℝ) / (hyponymy_batch_size : ℝ)
  let n_embeddings_sample_in_batch : ℝ :=
    if limit_hyponym_candidates_within_minibatch then
      (embedding_batch_size : ℝ) - 2 * (hyponymy_batch_size : ℝ)
    else
      (embedding_batch_size : ℝ) - 2 * (hyponymy_batch_size : ℝ)
        - (non_hyponymy_batch_size : ℝ)
  coef_effective_samples * n_iteration * n_embeddings_sample_in_batch

/-- Validity of one digit's categorical distribution: non-negative entries
summing to 1. -/
def valid_prob_row (r : List ℚ) : Prop :=
  (∀ x ∈ r, 0 ≤ x) ∧ r.sum = 1

/-- Validity of a code-distribution matrix: every digit row is a
categorical distribution. -/
def valid_code_distribution (t_prob_c : List (List ℚ)) : Prop :=
  ∀ r ∈ t_prob_c, valid_prob_row r

/-!  Helper lemmas about the survival-process construction. -/

theorem zipWith_mul_map_left (c : ℚ) :
    ∀ (A B : List ℚ),
      List.zipWith (· * ·) (A.map (c * ·)) B =
        (List.zipWith (· * ·) A B).map (c * ·)
  | [], _ => by simp
  | _ :: _, [] => by simp
  | a :: A, b :: B => by
    simp [zipWith_mul_map_left c A B, mul_assoc]

theorem intensity_to_probability_nil :
    intensity_to_probability [] = [1] := by
  simp [intensity_to_probability, cumprod]

theorem intensity_to_probability_cons (a : ℚ) (l : List ℚ) :
    intensity_to_probability (a :: l) =
      a :: (intensity_to_probability l).map ((1 - a) * ·) := by
  simp only [intensity_to_probability, List.map_cons, sub_zero, cumprod,
    List.cons_append, List.zipWith_cons_cons, one_mul, List.map_id',
    ← zipWith_mul_map_left, List.map_map]
  simp [Function.comp_def]

theorem intensity_to_probability_length (l : List ℚ) :
    (intensity_to_probability l).length = l.length + 1 := by
  induction l with
  | nil => simp [intensity_to_probability_nil]
  | cons a l ih => simp [intensity_to_probability_cons, ih]

theorem sum_map_mul (c : ℚ) : ∀ l : List ℚ, (l.map (c * ·)).sum = c * l.sum
  | [] => by simp
  | a :: l => by simp [sum_map_mul c l, mul_add]

theorem intensity_to_probability_sum (l : List ℚ) :
    (intensity_to_probability l).sum = 1 := by
  induction l with
  | nil => simp [intensity_to_probability_nil]
  | cons a l ih =>
    simp only [intensity_to_probability_cons, List.sum_cons, sum_map_mul, ih]
    ring

theorem intensity_to_probability_nonneg (l : List ℚ)
    (h : ∀ x ∈ l, 0 ≤ x ∧ x ≤ 1) :
    ∀ p ∈ intensity_to_probability l, 0 ≤ p := by
  induction l with
  | nil => simp [intensity_to_probability_nil]
  | cons a l ih =>
    intro p hp
    rw [intensity_to_probability_cons] at hp
    rcases List.mem_cons.mp hp with hpa | hp
    · rw [hpa]; exact (h a (List.mem_cons_self a l)).1
    · rcases List.mem_map.mp hp with ⟨q, hq, rfl⟩
      have ha := h a (List.mem_cons_self a l)
      have hq0 := ih (fun x hx => h x (List.mem_cons_of_mem a hx)) q hq
      exact mul_nonneg (by linarith [ha.2]) hq0

theorem intensity_to_probability_of_zeros (l : List ℚ)
    (h : ∀ x ∈ l, x = 0) :
    intensity_to_probability l = List.replicate l.length (0 : ℚ) ++ [1] := by
  induction l with
  | nil => simp [intensity_to_probability_nil]
  | cons a l ih =>
    have ha : a = 0 := h a (List.mem_cons_self a l)
    subst ha
    rw [intensity_to_probability_cons,
      ih (fun x hx => h x (List.mem_cons_of_mem _ hx))]
    simp [List.replicate_succ]

theorem intensity_to_probability_head_one (l : List ℚ) :
    intensity_to_probability ((1 : ℚ) :: l) =
      1 :: List.replicate (l.length + 1) (0 : ℚ) := by
  rw [intensity_to_probability_cons]
  have : ((1 : ℚ) - 1) = 0 := by norm_num
  rw [this]
  congr 1
  rw [← intensity_to_probability_length l]
  rw [← List.map_const']
  exact List.map_congr_left fun x _ => zero_mul x

theorem zipWith_mul_sum_nonneg :
    ∀ (p w : List ℚ), (∀ x ∈ p, 0 ≤ x) → (∀ x ∈ w, 0 ≤ x) →
      0 ≤ (List.zipWith (· * ·) p w).sum
  | [], _, _, _ => by simp
  | _ :: _, [], _, _ => by simp
  | a :: p, b :: w, hp, hw => by
    simp only [List.zipWith_cons_cons, List.sum_cons]
    have h1 := mul_nonneg (hp a (List.mem_cons_self a p))
      (hw b (List.mem_cons_self b w))
    have h2 := zipWith_mul_sum_nonneg p w
      (fun x hx => hp x (List.mem_cons_of_mem a hx))
      (fun x hx => hw x (List.mem_cons_of_mem b hx))
    linarith

theorem zipWith_mul_sum_le :
    ∀ (p w : List ℚ) (C : ℚ), 0 ≤ C → (∀ x ∈ p, 0 ≤ x) → (∀ x ∈ w, x ≤ C) →
      (List.zipWith (· * ·) p w).sum ≤ C * p.sum
  | [], _, C, _, _, _ => by simp
  | a :: p, [], C, hC, hp, _ => by
    simp only [List.zipWith_nil_right, List.sum_nil, List.sum_cons]
    have h0 : 0 ≤ a + p.sum := by
      have := hp a (List.mem_cons_self a p)
      have := List.sum_nonneg fun x hx => hp x (List.mem_cons_of_mem a hx)
      linarith
    exact mul_nonneg hC h0
  | a :: p, b :: w, C, hC, hp, hw => by
    simp only [List.zipWith_cons_cons, List.sum_cons, mul_add]
    have ha := hp a (List.mem_cons_self a p)
    have hb := hw b (List.mem_cons_self b w)
    have hab : a * b ≤ C * a := by nlinarith
    have hrec := zipWith_mul_sum_le p w C hC
      (fun x hx => hp x (List.mem_cons_of_mem a hx))
      (fun x hx => hw x (List.mem_cons_of_mem b hx))
    linarith

theorem zipWith_replicate_zero_sum :
    ∀ (n : Nat) (w : List ℚ),
      (List.zipWith (· * ·) (List.replicate n (0 : ℚ)) w).sum = 0
  | 0, _ => by simp
  | _ + 1, [] => by simp
  | n + 1, b :: w => by
    simp [List.replicate_succ, zipWith_replicate_zero_sum n w]

theorem arange_weights_mem (n : Nat) :
    ∀ x ∈ arange_weights n, 0 ≤ x ∧ x ≤ (n : ℚ) := by
  intro x hx
  simp only [arange_weights, List.mem_map, List.mem_range] at hx
  rcases hx with ⟨i, hi, rfl⟩
  exact ⟨Nat.cast_nonneg i, by exact_mod_cast Nat.lt_succ_iff.mp hi⟩

theorem headI_bounds (r : List ℚ) (h : valid_prob_row r) :
    0 ≤ r.headI ∧ r.headI ≤ 1 := by
  obtain ⟨h0, h1⟩ := h
  cases r with
  | nil => simp at h1
  | cons a t =>
    have ha := h0 a (List.mem_cons_self a t)
    have ht : 0 ≤ t.sum :=
      List.sum_nonneg fun x hx => h0 x (List.mem_cons_of_mem a hx)
    simp only [List.sum_cons] at h1
    exact ⟨ha, by simpa using by linarith⟩

theorem digit_zero_probs_bounds (P : List (List ℚ))
    (h : valid_code_distribution P) :
    ∀ a ∈ digit_zero_probs P, 0 ≤ a ∧ a ≤ 1 := by
  intro a ha
  rcases List.mem_map.mp ha with ⟨r, hr, rfl⟩
  exact headI_bounds r (h r hr)

/-- C6.  For every valid code-distribution input the soft code length lies in
`[0, n_digits]`; with every digit-0 probability equal to 0 it equals
`n_digits`, and with digit-0 probability 1 at the first digit it equals 0. -/
theorem C6_soft_code_length_bounds (P : List (List ℚ))
    (h : valid_code_distribution P) :
    (0 ≤ calc_soft_code_length P ∧
      calc_soft_code_length P ≤ (P.length : ℚ)) ∧
    ((∀ r ∈ P, r.headI = 0) → calc_soft_code_length P = (P.length : ℚ)) ∧
    (∀ r0 rest, P = r0 :: rest → r0.headI = 1 →
      calc_soft_code_length P = 0) := by
  have hx := digit_zero_probs_bounds P h
  have hlen : (digit_zero_probs P).length = P.length := List.length_map _ _
  refine ⟨⟨?_, ?_⟩, ?_, ?_⟩
  · exact zipWith_mul_sum_nonneg _ _
      (intensity_to_probability_nonneg _ hx)
      (fun w hw => (arange_weights_mem _ w hw).1)
  · have hle := zipWith_mul_sum_le (intensity_to_probability (digit_zero_probs P))
      (arange_weights (digit_zero_probs P).length)
      ((digit_zero_probs P).length : ℚ)
      (Nat.cast_nonneg _)
      (intensity_to_probability_nonneg _ hx)
      (fun w hw => (arange_weights_mem _ w hw).2)
    rw [intensity_to_probability_sum, mul_one] at hle
    simpa only [calc_soft_code_length, hlen] using hle
  · intro hz
    have hx0 : ∀ a ∈ digit_zero_probs P, a = 0 := by
      intro a ha
      rcases List.mem_map.mp ha with ⟨r, hr, rfl⟩
      exact hz r hr
    show (List.zipWith (· * ·)
        (intensity_to_probability (digit_zero_probs P))
        (arange_weights (digit_zero_probs P).length)).sum = (P.length : ℚ)
    rw [intensity_to_probability_of_zeros _ hx0, arange_weights,
      List.range_succ, List.map_append,
      List.zipWith_append _ _ _ _ _ (by simp), List.sum_append,
      zipWith_replicate_zero_sum]
    simp [hlen]
  · intro r0 rest hP h1
    subst hP
    show (List.zipWith (· * ·)
        (intensity_to_probability (digit_zero_probs (r0 :: rest)))
        (arange_weights (digit_zero_probs (r0 :: rest)).length)).sum = 0
    have hdz : digit_zero_probs (r0 :: rest) = 1 :: digit_zero_probs rest := by
      simp [digit_zero_probs, h1]
    rw [hdz, intensity_to_probability_head_one, arange_weights,
      List.length_cons, List.range_succ_eq_map, List.map_cons,
      List.zipWith_cons_cons, List.sum_cons, zipWith_replicate_zero_sum]
    simp

/-- Witness for C6 at the concrete one-digit distribution `[[1/2, 1/2]]`. -/
theorem C6_soft_code_length_bounds_witness :
    valid_code_distribution [[(1 : ℚ) / 2, 1 / 2]] ∧
    (0 ≤ calc_soft_code_length [[(1 : ℚ) / 2, 1 / 2]] ∧
      calc_soft_code_length [[(1 : ℚ) / 2, 1 / 2]] ≤
        (([[(1 : ℚ) / 2, 1 / 2]] : List (List ℚ)).length : ℚ)) :=
  ⟨by unfold valid_code_distribution valid_prob_row; norm_num,
    (C6_soft_code_length_bounds [[(1 : ℚ) / 2, 1 / 2]]
      (by unfold valid_code_distribution valid_prob_row; norm_num)).1⟩

/-!  Batch-construction lemmas. -/

theorem mem_set_tokens (s : HyponymySample) (batch : List HyponymySample)
    (hs : s ∈ batch) :
    s.hyponym ∈ set_tokens batch ∧ s.hypernym ∈ set_tokens batch := by
  constructor <;>
  · rw [set_tokens, List.mem_dedup, List.mem_flatMap]
    exact ⟨s, hs, by simp⟩

theorem set_tokens_subset_entity (index_to_entity : Nat → Nat) (B_e : Nat)
    (batch : List HyponymySample) (lst_index : List Nat) :
    ∀ t ∈ set_tokens batch,
      t ∈ (create_batch_from_hyponymy_samples index_to_entity B_e batch
        lst_index).entity := by
  intro t ht
  show t ∈ (set_tokens batch ++ _).dedup
  rw [List.mem_dedup, List.mem_append]
  exact Or.inl ht

theorem relation_indices_lt (index_to_entity : Nat → Nat) (B_e : Nat)
    (batch : List HyponymySample) (lst_index : List Nat) :
    ∀ r ∈ (create_batch_from_hyponymy_samples index_to_entity B_e batch
        lst_index).hyponymy_relation,
      r.1 < (create_batch_from_hyponymy_samples index_to_entity B_e batch
        lst_index).entity.length ∧
      r.2.1 < (create_batch_from_hyponymy_samples index_to_entity B_e batch
        lst_index).entity.length := by
  intro r hr
  rcases List.mem_map.mp hr with ⟨smp, hsmp, rfl⟩
  refine ⟨List.indexOf_lt_length.mpr ?_, List.indexOf_lt_length.mpr ?_⟩
  · exact set_tokens_subset_entity index_to_entity B_e batch lst_index _
      (mem_set_tokens smp batch hsmp).2
  · exact set_tokens_subset_entity index_to_entity B_e batch lst_index _
      (mem_set_tokens smp batch hsmp).1

theorem split_pos_subset (rels : List (Nat × Nat × ℚ))
    (raws : List HyponymySample) :
    ∀ r ∈ (split_hyponymy_samples_and_non_hyponymy_samples rels raws).1,
      r ∈ rels := by
  intro r hr
  rcases List.mem_map.mp hr with ⟨p, hp, rfl⟩
  exact (List.of_mem_zip (List.mem_filter.mp hp).1).1

theorem split_nonpos_subset (rels : List (Nat × Nat × ℚ))
    (raws : List HyponymySample) :
    ∀ r ∈ (split_hyponymy_samples_and_non_hyponymy_samples rels raws).2.2.1,
      r ∈ rels := by
  intro r hr
  rcases List.mem_map.mp hr with ⟨p, hp, rfl⟩
  exact (List.of_mem_zip (List.mem_filter.mp hp).1).1

/-- C4.  Every batch built by `_create_batch_from_hyponymy_samples` — and the
optional hyponymy / non-hyponymy split applied to it by the negative-sampling
subclass — satisfies the batch invariant: every hypernym and hyponym index in
a relation triple is strictly below the number of entities, and the entity
list has no duplicates. -/
theorem C4_batch_invariant (index_to_entity : Nat → Nat) (B_e : Nat)
    (batch : List HyponymySample) (lst_index : List Nat) :
    (create_batch_from_hyponymy_samples index_to_entity B_e batch
      lst_index).entity.Nodup ∧
    (∀ r ∈ (create_batch_from_hyponymy_samples index_to_entity B_e batch
        lst_index).hyponymy_relation,
      r.1 < (create_batch_from_hyponymy_samples index_to_entity B_e batch
        lst_index).entity.length ∧
      r.2.1 < (create_batch_from_hyponymy_samples index_to_entity B_e batch
        lst_index).entity.length) ∧
    (∀ r ∈ (split_hyponymy_samples_and_non_hyponymy_samples
        (create_batch_from_hyponymy_samples index_to_entity B_e batch
          lst_index).hyponymy_relation
        (create_batch_from_hyponymy_samples index_to_entity B_e batch
          lst_index).hyponymy_relation_raw).1,
      r.1 < (create_batch_from_hyponymy_samples index_to_entity B_e batch
        lst_index).entity.length ∧
      r.2.1 < (create_batch_from_hyponymy_samples index_to_entity B_e batch
        lst_index).entity.length) ∧
    (∀ r ∈ (split_hyponymy_samples_and_non_hyponymy_samples
        (create_batch_from_hyponymy_samples index_to_entity B_e batch
          lst_index).hyponymy_relation
        (create_batch_from_hyponymy_samples index_to_entity B_e batch
          lst_index).hyponymy_relation_raw).2.2.1,
      r.1 < (create_batch_from_hyponymy_samples index_to_entity B_e batch
        lst_index).entity.length ∧
      r.2.1 < (create_batch_from_hyponymy_samples index_to_entity B_e batch
        lst_index).entity.length) := by
  refine ⟨List.nodup_dedup _,
    relation_indices_lt index_to_entity B_e batch lst_index,
    fun r hr => relation_indices_lt index_to_entity B_e batch lst_index r
      (split_pos_subset _ _ r hr),
    fun r hr => relation_indices_lt index_to_entity B_e batch lst_index r
      (split_nonpos_subset _ _ r hr)⟩

/-- Witness for C4: the concrete batch built from one relation record with
two filler draws; the single relation triple `(1, 0, 1)` has both indices
below the entity count. -/
theorem C4_batch_invariant_witness :
    (create_batch_from_hyponymy_samples id 4
      ([⟨0, 1, 1⟩] : List HyponymySample) [2, 3]).entity.Nodup ∧
    (((1 : Nat), (0 : Nat), (1 : ℚ)).1 <
      (create_batch_from_hyponymy_samples id 4
        ([⟨0, 1, 1⟩] : List HyponymySample) [2, 3]).entity.length ∧
     ((1 : Nat), (0 : Nat), (1 : ℚ)).2.1 <
      (create_batch_from_hyponymy_samples id 4
        ([⟨0, 1, 1⟩] : List HyponymySample) [2, 3]).entity.length) :=
  ⟨(C4_batch_invariant id 4 [⟨0, 1, 1⟩] [2, 3]).1,
    (C4_batch_invariant id 4 [⟨0, 1, 1⟩] [2, 3]).2.1 (1, 0, 1) (by decide)⟩

theorem zip_map_fst_snd {α β : Type} :
    ∀ l : List (α × β), List.zip (l.map Prod.fst) (l.map Prod.snd) = l
  | [] => rfl
  | a :: l => by
    simp only [List.map_cons, List.zip_cons_cons, zip_map_fst_snd l]

/-- C5.  The post-split hyponymy sublist holds exactly the zipped records
with distance strictly greater than 0 and the non-hyponymy sublist exactly
those with distance at most 0, relation triples stay aligned with their raw
records, and the two sublists together are a permutation (multiset equality)
of the pre-split lists. -/
theorem C5_split_partition (rels : List (Nat × Nat × ℚ))
    (raws : List HyponymySample) (hlen : rels.length = raws.length) :
    (∀ r ∈ (split_hyponymy_samples_and_non_hyponymy_samples rels raws).1,
      0 < r.2.2) ∧
    (∀ r ∈ (split_hyponymy_samples_and_non_hyponymy_samples rels raws).2.2.1,
      r.2.2 ≤ 0) ∧
    List.zip (split_hyponymy_samples_and_non_hyponymy_samples rels raws).1
        (split_hyponymy_samples_and_non_hyponymy_samples rels raws).2.1 =
      (List.zip rels raws).filter (fun p => decide ((0 : ℚ) < p.1.2.2)) ∧
    List.zip (split_hyponymy_samples_and_non_hyponymy_samples rels raws).2.2.1
        (split_hyponymy_samples_and_non_hyponymy_samples rels raws).2.2.2 =
      (List.zip rels raws).filter
        (fun p => !(decide ((0 : ℚ) < p.1.2.2))) ∧
    ((split_hyponymy_samples_and_non_hyponymy_samples rels raws).1 ++
      (split_hyponymy_samples_and_non_hyponymy_samples rels raws).2.2.1).Perm
      rels ∧
    ((split_hyponymy_samples_and_non_hyponymy_samples rels raws).2.1 ++
      (split_hyponymy_samples_and_non_hyponymy_samples rels raws).2.2.2).Perm
      raws := by
  refine ⟨?_, ?_, ?_, ?_, ?_, ?_⟩
  · intro r hr
    rcases List.mem_map.mp hr with ⟨p, hp, rfl⟩
    exact of_decide_eq_true (List.mem_filter.mp hp).2
  · intro r hr
    rcases List.mem_map.mp hr with ⟨p, hp, rfl⟩
    have hb := (List.mem_filter.mp hp).2
    rw [Bool.not_eq_true'] at hb
    exact not_lt.mp (of_decide_eq_false hb)
  · exact zip_map_fst_snd _
  · exact zip_map_fst_snd _
  · have h1 := (List.filter_append_perm
      (fun p => decide ((0 : ℚ) < p.1.2.2)) (List.zip rels raws)).map
      (Prod.fst : (Nat × Nat × ℚ) × HyponymySample → Nat × Nat × ℚ)
    rw [List.map_append, List.map_fst_zip rels raws hlen.le] at h1
    exact h1
  · have h1 := (List.filter_append_perm
      (fun p => decide ((0 : ℚ) < p.1.2.2)) (List.zip rels raws)).map
      (Prod.snd : (Nat × Nat × ℚ) × HyponymySample → HyponymySample)
    rw [List.map_append, List.map_snd_zip rels raws hlen.ge] at h1
    exact h1

/-- Witness for C5 on the concrete one-record batch
`rels = [(0, 1, 3)]`, `raws = [⟨0, 1, 3⟩]`. -/
theorem C5_split_partition_witness :
    0 < (((0 : Nat), (1 : Nat), (3 : ℚ))).2.2 ∧
    ((split_hyponymy_samples_and_non_hyponymy_samples
        [((0 : Nat), (1 : Nat), (3 : ℚ))]
        ([⟨0, 1, 3⟩] : List HyponymySample)).1 ++
      (split_hyponymy_samples_and_non_hyponymy_samples
        [((0 : Nat), (1 : Nat), (3 : ℚ))]
        ([⟨0, 1, 3⟩] : List HyponymySample)).2.2.1).Perm
      [((0 : Nat), (1 : Nat), (3 : ℚ))] :=
  ⟨(C5_split_partition [((0 : Nat), (1 : Nat), (3 : ℚ))]
      ([⟨0, 1, 3⟩] : List HyponymySample) (by decide)).1
      ((0 : Nat), (1 : Nat), (3 : ℚ)) (by decide),
    (C5_split_partition [((0 : Nat), (1 : Nat), (3 : ℚ))]
      ([⟨0, 1, 3⟩] : List HyponymySample) (by decide)).2.2.2.2.1⟩

/-- C1 counterexample.  With vocabulary size 4 (`index_to_entity = id`),
embedding batch size 3 and the single relation record `(hyponym 0,
hypernym 1)`, the draw `lst_index = [0]` is a legitimate outcome of
`np.random.choice(range(4), size=1, replace=False)` — the conjuncts record
that it is duplicate-free, inside the vocabulary, and of size
`n_diff = B_e - |set_tokens|` — yet entity 0 is already a relation entity,
so the deduplicated batch has 2 entities, not `B_e = 3`. -/
theorem C1_counterexample :
    (create_batch_from_hyponymy_samples id 3
      ([⟨0, 1, 1⟩] : List HyponymySample) [0]).entity.length ≠ 3 ∧
    ([0] : List Nat).Nodup ∧
    (∀ i ∈ ([0] : List Nat), i < 4) ∧
    ([0] : List Nat).length =
      3 - (set_tokens ([⟨0, 1, 1⟩] : List HyponymySample)).length := by
  refine ⟨?_, by decide, by decide, by decide⟩
  decide

/-- C1 (amended).  The batch's entity count equals `B_e` provided the drawn
filler entities are pairwise distinct, none of them coincides with a relation
entity, the draw has size `n_diff = B_e - |set_tokens|`, and the relation
entities do not already exceed `B_e`; without the freshness proviso a filler
drawn from the full vocabulary can collide with a relation entity and the
deduplicated batch falls short of `B_e`. -/
theorem C1_entity_count_eq_batch_size (index_to_entity : Nat → Nat)
    (batch : List HyponymySample) (B_e : Nat) (lst_index : List Nat)
    (h_nodup : (lst_index.map index_to_entity).Nodup)
    (h_fresh : ∀ t ∈ lst_index.map index_to_entity, t ∉ set_tokens batch)
    (h_len : (lst_index.map index_to_entity).length =
      B_e - (set_tokens batch).length)
    (h_le : (set_tokens batch).length ≤ B_e) :
    (create_batch_from_hyponymy_samples index_to_entity B_e batch
      lst_index).entity.length = B_e := by
  have hst : (set_tokens batch).Nodup := List.nodup_dedup _
  show ((set_tokens batch ++
      (if 0 < (B_e : Int) - ((set_tokens batch).length : Int)
        then lst_index.map index_to_entity else [])).dedup).length = B_e
  by_cases hlt : (set_tokens batch).length < B_e
  · rw [if_pos (by omega)]
    have hdisj : (set_tokens batch).Disjoint (lst_index.map index_to_entity) :=
      List.disjoint_right.mpr h_fresh
    rw [List.dedup_eq_self.mpr (hst.append h_nodup hdisj),
      List.length_append, h_len]
    omega
  · rw [if_neg (by omega)]
    rw [List.append_nil, List.dedup_eq_self.mpr hst]
    omega

/-- Witness for C1 (amended): one relation record, `B_e = 3`, and the
collision-free draw `[2]`. -/
theorem C1_entity_count_eq_batch_size_witness :
    (create_batch_from_hyponymy_samples id 3
      ([⟨0, 1, 1⟩] : List HyponymySample) [2]).entity.length = 3 :=
  C1_entity_count_eq_batch_size id [⟨0, 1, 1⟩] 3 [2]
    (by decide) (by decide) (by decide) (by decide)

/-!  Clamping (claim C2). -/

theorem clamp_prob_mem (x : ℚ) :
    1 / 100000 ≤ clamp_prob x ∧ clamp_prob x ≤ 1 - 1 / 100000 := by
  unfold clamp_prob
  exact ⟨le_min (le_max_right _ _) (by norm_num), min_le_right _ _⟩

theorem clamp_prob_idem (x : ℚ) :
    clamp_prob (clamp_prob x) = clamp_prob x := by
  have h := clamp_prob_mem x
  show min (max (clamp_prob x) (1 / 100000)) (1 - 1 / 100000) = clamp_prob x
  rw [max_eq_left h.1, min_eq_left h.2]

theorem clamp_tensor_idem (P : List (List (List ℚ))) :
    clamp_tensor (clamp_tensor P) = clamp_tensor P := by
  simp [clamp_tensor, List.map_map, Function.comp_def, clamp_prob_idem]

/-- C2 (amended).  The clamp into `[1E-5, 1-1E-5]` is real for the
hyponymy-score and entailment-probability forwards: every entry of the
clamped tensor lies in that interval, and both forwards are invariant under
pre-clamping their input (they clamp it themselves).  The code-length,
code-length-difference and LCA-length forwards do not clamp
(see the counterexample). -/
theorem C2_forward_clamping (P : List (List (List ℚ)))
    (lst : List (Nat × Nat × ℚ)) :
    (∀ m ∈ clamp_tensor P, ∀ r ∈ m, ∀ x ∈ r,
      1 / 100000 ≤ x ∧ x ≤ 1 - 1 / 100000) ∧
    hyponymy_score_forward_y_pred (clamp_tensor P) lst =
      hyponymy_score_forward_y_pred P lst ∧
    entailment_probability_forward_y_pred (clamp_tensor P) lst =
      entailment_probability_forward_y_pred P lst := by
  refine ⟨?_, ?_, ?_⟩
  · intro m hm r hr x hx
    rcases List.mem_map.mp hm with ⟨m0, _, rfl⟩
    rcases List.mem_map.mp hr with ⟨r0, _, rfl⟩
    rcases List.mem_map.mp hx with ⟨x0, _, rfl⟩
    exact clamp_prob_mem x0
  · simp only [hyponymy_score_forward_y_pred, clamp_tensor_idem]
  · simp only [entailment_probability_forward_y_pred, clamp_tensor_idem]

/-- Witness for C2 at the concrete tensor `[[[0]]]`: the clamped entry
`clamp_prob 0` lies inside `[1E-5, 1-1E-5]`. -/
theorem C2_forward_clamping_witness :
    1 / 100000 ≤ clamp_prob 0 ∧ clamp_prob 0 ≤ 1 - 1 / 100000 :=
  (C2_forward_clamping [[[0]]] []).1 [[clamp_prob 0]] (by simp [clamp_tensor])
    [clamp_prob 0] (by simp) (clamp_prob 0) (by simp)

/-- C2 counterexample.  The code-length, code-length-difference and
LCA-length forwards are sensitive to pre-clamping of a distribution holding
an exact 0/1 entry, so none of them clamps its input: their `y_pred` on the
raw tensor differs from their `y_pred` on the clamped tensor. -/
theorem C2_counterexample :
    code_length_forward_y_pred [[[0, 1]]] [(0, 0)] ≠
      code_length_forward_y_pred (clamp_tensor [[[0, 1]]]) [(0, 0)] ∧
    code_length_diff_forward_y_pred [[[0, 1]], [[1, 0]]] [(0, 1, 0)] ≠
      code_length_diff_forward_y_pred (clamp_tensor [[[0, 1]], [[1, 0]]])
        [(0, 1, 0)] ∧
    lca_length_forward_y_pred [[[0, 1]]] [(0, 0, 0)] ≠
      lca_length_forward_y_pred (clamp_tensor [[[0, 1]]]) [(0, 0, 0)] := by
  refine ⟨?_, ?_, ?_⟩
  · norm_num [code_length_forward_y_pred, clamp_tensor, clamp_prob,
      index_select, calc_soft_code_length, digit_zero_probs,
      intensity_to_probability, cumprod, arange_weights, List.range_succ]
  · norm_num [code_length_diff_forward_y_pred, clamp_tensor, clamp_prob,
      calc_soft_code_length, digit_zero_probs, intensity_to_probability,
      cumprod, arange_weights, List.range_succ]
  · norm_num [lca_length_forward_y_pred, clamp_tensor, clamp_prob,
      index_select, calc_soft_lowest_common_ancestor_length,
      calc_break_intensity, intensity_to_probability, cumprod,
      arange_weights, List.range_succ]

/-- C7.  `calc_soft_hyponymy_score` is exactly
`α·(L_y - L_x) + (1 - α)·(L_lca - L_x)` with `α` the ancestor probability and
`L` the soft code lengths; when the ancestor probability equals 1 it
collapses to `soft_code_length(P_y) - soft_code_length(P_x)`. -/
theorem C7_hyponymy_score_formula (t_prob_c_x t_prob_c_y : List (List ℚ)) :
    calc_soft_hyponymy_score t_prob_c_x t_prob_c_y =
      calc_ancestor_probability t_prob_c_x t_prob_c_y *
          (calc_soft_code_length t_prob_c_y -
            calc_soft_code_length t_prob_c_x) +
        (1 - calc_ancestor_probability t_prob_c_x t_prob_c_y) *
          (calc_soft_lowest_common_ancestor_length t_prob_c_x t_prob_c_y -
            calc_soft_code_length t_prob_c_x) ∧
    (calc_ancestor_probability t_prob_c_x t_prob_c_y = 1 →
      calc_soft_hyponymy_score t_prob_c_x t_prob_c_y =
        calc_soft_code_length t_prob_c_y -
          calc_soft_code_length t_prob_c_x) := by
  refine ⟨rfl, fun h => ?_⟩
  show calc_ancestor_probability t_prob_c_x t_prob_c_y *
      (calc_soft_code_length t_prob_c_y - calc_soft_code_length t_prob_c_x) +
    (1 - calc_ancestor_probability t_prob_c_x t_prob_c_y) *
      (calc_soft_lowest_common_ancestor_length t_prob_c_x t_prob_c_y -
        calc_soft_code_length t_prob_c_x) = _
  rw [h]
  ring

/-- Witness for C7: the pair `P_x = [[1, 0]]`, `P_y = [[0, 1]]` has ancestor
probability exactly 1, and the score there equals the code-length
difference. -/
theorem C7_hyponymy_score_formula_witness :
    calc_ancestor_probability [[1, 0]] [[0, 1]] = 1 ∧
    calc_soft_hyponymy_score [[1, 0]] [[0, 1]] =
      calc_soft_code_length [[0, 1]] - calc_soft_code_length [[1, 0]] :=
  ⟨by norm_num [calc_ancestor_probability, cumprod, List.headI],
    (C7_hyponymy_score_formula [[1, 0]] [[0, 1]]).2
      (by norm_num [calc_ancestor_probability, cumprod, List.headI])⟩

/-- C8 counterexample.  On `u = [2,2,2]`, `v = [1,1,1]` the auto-scaled MSE
does not fit the scale 0.5 exactly and does not return an exact 0: the
`+1E-6` regulariser in the denominator shifts the fitted factor to
`6000000/12000001`.  (The fallback argument is irrelevant here: the fitted
scale is positive, see the amended theorem.) -/
theorem C8_counterexample :
    auto_scale [2, 2, 2] [1, 1, 1] ≠ 1 / 2 ∧
    auto_scaled_mse mse_mean [2, 2, 2] [1, 1, 1] ≠ 0 := by
  constructor
  · norm_num [auto_scale]
  · rw [auto_scaled_mse, if_pos (by norm_num [auto_scale])]
    norm_num [auto_scale, mse_mean]

/-- C8 (amended).  On `u = [2,2,2]`, `v = [1,1,1]` the fitted scale is
`Σuv/(Σu²+1E-6) = 6000000/12000001 ≈ 0.49999996`, the positive-scale branch
is taken whatever the scaled-MSE fallback is, and the loss is the tiny but
nonzero value `(1/12000001)²`. -/
theorem C8_auto_scaled_mse_value
    (scaled_mse_fallback : List ℚ → List ℚ → ℚ) :
    auto_scale [2, 2, 2] [1, 1, 1] = 6000000 / 12000001 ∧
    auto_scaled_mse scaled_mse_fallback [2, 2, 2] [1, 1, 1] =
      (1 / 12000001) ^ 2 := by
  constructor
  · norm_num [auto_scale]
  · rw [auto_scaled_mse, if_pos (by norm_num [auto_scale])]
    norm_num [auto_scale, mse_mean]

/-- C9.  Dispatch on the distance-metric name happens once, inside
`__init__`: a name resolves to a metric tag exactly when it belongs to the
supported set, and any other name yields the construction-time
`AttributeError`; the stored tag is what every later `forward` call uses, so
no call-time name dispatch exists. -/
theorem C9_metric_dispatch_at_construction (s : String) :
    (∃ m, select_distance_metric s = Except.ok m) ↔
      s ∈ supported_distance_metrics := by
  constructor
  · intro hok
    by_contra hs
    simp only [supported_distance_metrics, List.mem_cons, List.mem_singleton,
      not_or] at hs
    obtain ⟨m, hm⟩ := hok
    unfold select_distance_metric at hm
    rw [if_neg hs.1, if_neg hs.2.1, if_neg hs.2.2.1, if_neg hs.2.2.2.1,
      if_neg hs.2.2.2.2.1, if_neg hs.2.2.2.2.2.1, if_neg hs.2.2.2.2.2.2.1,
      if_neg hs.2.2.2.2.2.2.2.1, if_neg hs.2.2.2.2.2.2.2.2.1,
      if_neg hs.2.2.2.2.2.2.2.2.2.1,
      if_neg hs.2.2.2.2.2.2.2.2.2.2.1] at hm
    cases hm
  · intro hs
    fin_cases hs <;> exact ⟨_, rfl⟩

/-- C10.  Constructing the negative-sampling dataset with the default
`non_hyponymy_batch_size = None` always raises (the `%`-assert evaluates
`None % hyponymy_batch_size` before the `None`-to-default substitution), and
every successful construction passed an explicit integer
`non_hyponymy_batch_size` that is a multiple of a nonzero
`hyponymy_batch_size`. -/
theorem C10_none_non_hyponymy_batch_size_errors :
    (∀ (embedding_batch_size hyponymy_batch_size : Nat) (tgt : String)
        (lim : Bool),
      ∃ e, with_non_hyponymy_init embedding_batch_size hyponymy_batch_size
        none tgt lim = Except.error e) ∧
    (∀ (embedding_batch_size hyponymy_batch_size : Nat) (nbo : Option Nat)
        (tgt : String) (lim : Bool) (cfg : NonHyponymyConfig),
      with_non_hyponymy_init embedding_batch_size hyponymy_batch_size nbo
        tgt lim = Except.ok cfg →
      ∃ nb, nbo = some nb ∧ nb % hyponymy_batch_size = 0 ∧
        0 < hyponymy_batch_size) := by
  constructor
  · intro eb hb tgt lim
    unfold with_non_hyponymy_init
    by_cases h : 2 * hb ≤ eb
    · exact ⟨_, by rw [if_neg (not_not_intro h)]⟩
    · exact ⟨_, by rw [if_pos h]⟩
  · intro eb hb nbo tgt lim cfg h
    cases nbo with
    | none =>
      unfold with_non_hyponymy_init at h
      dsimp only at h
      split_ifs at h
    | some nb =>
      unfold with_non_hyponymy_init at h
      dsimp only at h
      refine ⟨nb, rfl, ?_⟩
      split_ifs at h with h1 h2 h3 h4 h5 h6
      exact ⟨h3, Nat.pos_of_ne_zero h2⟩

/-- Witness for C10: the explicit configuration
`embedding_batch_size = 4`, `hyponymy_batch_size = 1`,
`non_hyponymy_batch_size = some 2`, target `hyponym`, in-minibatch
candidates, constructs successfully, so the theorem yields the multiple
property at it. -/
theorem C10_none_non_hyponymy_batch_size_errors_witness :
    ∃ nb, (some 2 : Option Nat) = some nb ∧ nb % 1 = 0 ∧ 0 < 1 :=
  C10_none_non_hyponymy_batch_size_errors.2 4 1 (some 2) "hyponym" true
    ⟨4, 1, 2, 2, "hyponym", true⟩ rfl

/-!  The batch-size balancer (claim C3). -/

theorem coef_effective_samples_pos : 0 < coef_effective_samples := by
  unfold coef_effective_samples
  have h1 : (1 : ℝ) < Real.exp 1 := by
    have := Real.exp_one_gt_d9
    linarith
  have h2 : 1 / Real.exp 1 < 1 := by
    rw [div_lt_one (Real.exp_pos 1)]
    exact h1
  linarith

/-- C3 counterexample.  At `n_hyponymy = 5`, `hyponymy_batch_size = 2`,
`embedding_batch_size = 10` the implementation computes
`(1 - e⁻¹) · (5/2) · 6`, while the claimed formula with the rounded-up batch
count `ceil(5/2) = 3` gives `(1 - e⁻¹) · 3 · 6`; the two differ because the
coefficient is nonzero. -/
theorem C3_counterexample :
    n_embeddings_used_in_epoch 5 2 10 ≠
      n_embeddings_used_in_epoch_spec 5 2 10 := by
  have hc := coef_effective_samples_pos
  have hceil : ⌈(((5 : ℕ) : ℝ)) / (((2 : ℕ) : ℝ))⌉ = 3 := by
    norm_num
    rw [Int.ceil_eq_iff]
    norm_num
  unfold n_embeddings_used_in_epoch n_embeddings_used_in_epoch_spec
  rw [hceil]
  intro h
  push_cast at h
  nlinarith [hc]

/-- C3 (amended).  `verify_batch_sizes` computes the expected number of
distinct embeddings touched in one epoch as `(1 - e⁻¹)` times the *exact*
quotient `n_hyponymy / hyponymy_batch_size` (true division, not its
ceiling) times the filler slot count `B_e - 2·B_r`, and reports the ratio of
that quantity to the vocabulary size; the negative-sampling subclass with
in-minibatch candidate limiting computes the same quantity. -/
theorem C3_used_embeddings_formula
    (n_hyponymy n_embeddings hyponymy_batch_size embedding_batch_size
      non_hyponymy_batch_size : ℕ) :
    consumption_fraction n_hyponymy n_embeddings hyponymy_batch_size
        embedding_batch_size =
      (1 - 1 / Real.exp 1) * ((n_hyponymy : ℝ) / (hyponymy_batch_size : ℝ)) *
        ((embedding_batch_size : ℝ) - 2 * (hyponymy_batch_size : ℝ)) /
        (n_embeddings : ℝ) ∧
    n_embeddings_used_in_epoch_with_non_hyponymy n_hyponymy
        hyponymy_batch_size embedding_batch_size non_hyponymy_batch_size
        true =
      n_embeddings_used_in_epoch n_hyponymy hyponymy_batch_size
        embedding_batch_size := by
  constructor
  · rfl
  · simp [n_embeddings_used_in_epoch_with_non_hyponymy,
      n_embeddings_used_in_epoch]

end HierarchicalCodeLearning
